import Mathlib
/-
Verification of the tax-regression analysis pipeline of the
CorporateTaxBehaviorAnalysis repository.

The Python sources are shallowly embedded over ℚ: a pandas DataFrame row
becomes a record of `Option ℚ` fields (NaN / missing = `none`), a DataFrame
becomes a `List` of such records, and `np.log` becomes an abstract parameter
`log : ℚ → ℚ` (its numeric values never matter to the claims, only where and
on which arguments it is applied).
-/

/- Definitions: the shallow embedding of the pipeline. -/

/-- A normalized firm record: one row of the source table after column
renaming and numeric coercion (`load_and_standardize_data` plus the
`pd.to_numeric(..., errors := coerce)` steps).  Financial fields are either a
number or explicitly absent. -/
structure FirmRecord where
  upe_name : String
  profit_before_tax : Option ℚ
  tax_accrued : Option ℚ
  tax_paid : Option ℚ
  employees : Option ℚ
  tangible_assets : Option ℚ
  related_revenues : Option ℚ
deriving DecidableEq, Repr

/-- Which tax-basis column a run uses (`tax_accrued` or `tax_paid`). -/
inductive TaxCol where
  | accrued
  | paid
deriving DecidableEq, Repr

/-- Column access for the chosen tax basis. -/
def taxGet : TaxCol → FirmRecord → Option ℚ
  | .accrued, r => r.tax_accrued
  | .paid, r => r.tax_paid

/-- A row of a minimal analysis base (Base 1): the surviving firm record
together with the derived columns `ETR`, `ln_profits`, `ETR_sq` added by
`create_global_clean_bases` / `Analyzer.prepare_datasets`. -/
structure Row1 where
  firm : FirmRecord
  profit_before_tax : ℚ
  tax : ℚ
  ETR : ℚ
  ln_profits : ℚ
  ETR_sq : ℚ
deriving DecidableEq, Repr

/-- A row of a with-controls base (Base 2): a Base-1-shaped row plus the
`ln_<control>` columns added one by one by the control loop. -/
structure Row2 where
  base : Row1
  lnCtrls : List (String × ℚ)
deriving DecidableEq, Repr

/-- The turning point computed in `run_regression` of every script:
`tp = -b1 / (2*b2) if b2 != 0 else 0`. -/
def turningPoint (b1 b2 : ℚ) : ℚ :=
  if b2 ≠ 0 then -b1 / (2 * b2) else 0

/-- The curve-shape label computed in `Analyzer.run_regression`
(analysis_script.py line 155): `shape = "Inverted U" if b2 < 0 else "U-Shape"`. -/
def shapeLabel (b2 : ℚ) : String :=
  if b2 < 0 then "Inverted U" else "U-Shape"

/-- Model of `df[ETR].min()` over a base (0 on the empty base, which pandas would
render as NaN; `run_regression` is only reached on nonempty bases). -/
def minETR : List Row1 → ℚ
  | [] => 0
  | r :: rs => rs.foldl (fun m x => min m x.ETR) r.ETR

/-- Model of `df[ETR].max()` over a base. -/
def maxETR : List Row1 → ℚ
  | [] => 0
  | r :: rs => rs.foldl (fun m x => max m x.ETR) r.ETR

/-- The in-range validity flag of the U-test:
`is_valid = min_etr <= tp <= max_etr` (Germany_Baseline_Tax_Study.py line 135,
Italy_Baseline_Tax_Study.py line 168). -/
def uTestValid (rows : List Row1) (b1 b2 : ℚ) : Bool :=
  decide (minETR rows ≤ turningPoint b1 b2 ∧ turningPoint b1 b2 ≤ maxETR rows)

/-- A placeholder firm record for constructing explicit base rows. -/
def blankRec : FirmRecord :=
  { upe_name := "X", profit_before_tax := some 1, tax_accrued := some 0,
    tax_paid := some 0, employees := some 1, tangible_assets := some 1,
    related_revenues := some 1 }

/-- A base row with a prescribed ETR value. -/
def rowWithETR (e : ℚ) : Row1 :=
  { firm := blankRec, profit_before_tax := 1, tax := e, ETR := e,
    ln_profits := 0, ETR_sq := e ^ 2 }

/-- Observed ETR values spanning [0, 0.4] (inside the window [0, 0.5)). -/
def exBaseLow : List Row1 := [rowWithETR 0, rowWithETR (2/5)]

/-- Observed ETR values spanning [0.3, 0.4]. -/
def exBaseHigh : List Row1 := [rowWithETR (3/10), rowWithETR (2/5)]

/-- Model of `df.dropna(subset=[profit_before_tax, tax_col])`: surviving rows paired
with their (profit, tax) values. -/
def dropnaPT (tax : FirmRecord → Option ℚ) (df : List FirmRecord) :
    List (FirmRecord × ℚ × ℚ) :=
  df.filterMap fun r =>
    match r.profit_before_tax, tax r with
    | some p, some t => some (r, p, t)
    | _, _ => none

/-- Model of `df.dropna(subset=[profit_before_tax, tax_col] + valid_controls)`
(Germany_Baseline_Tax_Study.py line 102): strict listwise deletion over
profit, tax and all three control columns. -/
def dropnaAllCtrls (tax : FirmRecord → Option ℚ) (df : List FirmRecord) :
    List (FirmRecord × ℚ × ℚ) :=
  df.filterMap fun r =>
    match r.profit_before_tax, tax r with
    | some p, some t =>
        if r.employees.isSome && r.tangible_assets.isSome &&
            r.related_revenues.isSome
        then some (r, p, t) else none
    | _, _ => none

/-- The shared tail of `create_global_clean_bases`: keep positive profits,
compute `ETR = tax / profit`, keep `ETR_MIN ≤ ETR < ETR_MAX`, then add the
`ln_profits` and `ETR_sq` columns. -/
def finishBase (log : ℚ → ℚ) (emin emax : ℚ)
    (s : List (FirmRecord × ℚ × ℚ)) : List Row1 :=
  (((s.filter fun x => decide (0 < x.2.1)).map
      fun x => (x, x.2.2 / x.2.1)).filter
      fun y => decide (emin ≤ y.2 ∧ y.2 < emax)).map
    fun y =>
      { firm := y.1.1, profit_before_tax := y.1.2.1, tax := y.1.2.2,
        ETR := y.2, ln_profits := log y.1.2.1, ETR_sq := y.2 ^ 2 }

/-- Global Base 1 of `create_global_clean_bases` (Germany lines 81-87, Italy
baseline lines 114-125), parameterised by the per-script ETR window. -/
def mkBase1 (log : ℚ → ℚ) (emin emax : ℚ) (tax : FirmRecord → Option ℚ)
    (df : List FirmRecord) : List Row1 :=
  finishBase log emin emax (dropnaPT tax df)

/-- The three control columns requested by every script. -/
inductive Ctrl where
  | employees
  | tangible_assets
  | related_revenues
deriving DecidableEq, Repr

/-- The column name of a control. -/
def ctrlName : Ctrl → String
  | .employees => "employees"
  | .tangible_assets => "tangible_assets"
  | .related_revenues => "related_revenues"

/-- Column access for a control. -/
def ctrlGet : Ctrl → FirmRecord → Option ℚ
  | .employees, r => r.employees
  | .tangible_assets, r => r.tangible_assets
  | .related_revenues, r => r.related_revenues

/-- The `controls = [employees, tangible_assets, related_revenues]` list. -/
def controlList : List Ctrl := [.employees, .tangible_assets, .related_revenues]

/-- One iteration of the control loop: `gb2 = gb2[gb2[c] > 0]` followed by
`gb2[ln_c] = np.log(gb2[c])` (a row whose control value is NaN fails the
`> 0` comparison in pandas and is dropped, exactly as `none` is here). -/
def applyControl (log : ℚ → ℚ) (c : Ctrl) (rows : List Row2) : List Row2 :=
  rows.filterMap fun r =>
    match ctrlGet c r.base.firm with
    | some v =>
        if 0 < v then
          some { r with lnCtrls := r.lnCtrls ++ [("ln_" ++ ctrlName c, log v)] }
        else none
    | none => none

/-- Global Base 2 of `create_global_clean_bases` (Germany lines 102-119):
listwise deletion over profit, tax and controls, the shared filters, then the
control loop.  The returned control-name list (`logged_controls`) contains
`ln_<c>` for every control whose column exists — in this typed embedding,
always all three — independently of the data. -/
def germanyBase2 (log : ℚ → ℚ) (emin emax : ℚ) (tax : FirmRecord → Option ℚ)
    (df : List FirmRecord) : List Row2 × List String :=
  let rows := (finishBase log emin emax (dropnaAllCtrls tax df)).map
    fun r => { base := r, lnCtrls := [] }
  (controlList.foldl (fun acc c => applyControl log c acc) rows,
   controlList.map fun c => "ln_" ++ ctrlName c)

/-- Base 1 of `Analyzer.prepare_datasets` (analysis_script.py lines 114-124):
ETR is computed on the dropna result and the profit/ETR conditions are
applied as one combined filter, with the window hard-coded to [0, 0.5).
(For a row with `profit_before_tax = 0` pandas would produce an infinite
ETR where ℚ division yields 0, but such rows fail the `profit > 0` conjunct
either way, so the surviving rows agree.) -/
def analyzerBase1 (log : ℚ → ℚ) (tax : FirmRecord → Option ℚ)
    (df : List FirmRecord) : List Row1 :=
  ((dropnaPT tax df).filter fun x =>
      decide (0 < x.2.1 ∧ 0 ≤ x.2.2 / x.2.1 ∧ x.2.2 / x.2.1 < 1/2)).map
    fun x =>
      { firm := x.1, profit_before_tax := x.2.1, tax := x.2.2,
        ETR := x.2.2 / x.2.1, ln_profits := log x.2.1,
        ETR_sq := (x.2.2 / x.2.1) ^ 2 }

/-- Model of `(base2[ctrl] > 0).sum()`: the number of rows of the base whose value in
the given control column is strictly positive (NaN counts as not positive). -/
def countPos (get : FirmRecord → Option ℚ) (rows : List Row1) : ℕ :=
  (rows.filter fun r =>
    match get r.firm with
    | some v => decide (0 < v)
    | none => false).length

/-- The control-selection rule of `Analyzer.prepare_datasets` (lines
131-134): a control is kept only when more than 5 rows of the base have a
strictly positive value for it. -/
def analyzerValidControls (b1 : List Row1) : List Ctrl :=
  controlList.filter fun c => decide (5 < countPos (ctrlGet c) b1)

/-- Base 2 of `Analyzer.prepare_datasets` (lines 126-141): start from Base 1,
select controls by the positive-count rule, `dropna` over the selected
controls, then run the control loop over them.  The second component is the
returned `valid_controls` list. -/
def analyzerBase2 (log : ℚ → ℚ) (tax : FirmRecord → Option ℚ)
    (df : List FirmRecord) : List Row2 × List String :=
  let b1 := analyzerBase1 log tax df
  let vcs := analyzerValidControls b1
  let rows := (b1.filter fun r => vcs.all fun c => (ctrlGet c r.firm).isSome).map
    fun r => { base := r, lnCtrls := [] }
  (vcs.foldl (fun acc c => applyControl log c acc) rows, vcs.map ctrlName)

/-- The Germany main-script gate (Germany_Baseline_Tax_Study.py lines 170,
174, 196, 200): a regression on a base is attempted only when
`len(base) > 10`. -/
def germanyMainFits (df : List Row1) : Bool :=
  decide (10 < df.length)

/-- The engine-level insufficient-data check of `run_regression`
(Italy_Baseline_Tax_Study.py line 153, analysis_script.py line 145):
`if len(df) < 5: return "Insufficient Data"`. -/
def italyInsufficient (df : List Row1) : Bool :=
  decide (df.length < 5)

/-- The function `run_regression` proceeds to fit exactly when the insufficient-data
check does not fire. -/
def italyFits (df : List Row1) : Bool :=
  !(italyInsufficient df)

/-- A 4-row base used to exercise the insufficient-data gates. -/
def fourRowBase : List Row1 :=
  [rowWithETR 0, rowWithETR (1/10), rowWithETR (1/5), rowWithETR (3/10)]

/-- A concrete stand-in for `np.log`, used to evaluate witnesses. -/
def constLog : ℚ → ℚ := fun _ => 0

/-- Every logged control value of a Base-2 row is the log of a strictly
positive source value — in particular `ln(0)` is never attempted. -/
def lnPos (log : ℚ → ℚ) (r : Row2) : Prop :=
  ∀ p ∈ r.lnCtrls, ∃ v : ℚ, 0 < v ∧ p.2 = log v

/-- The per-row AnalysisBase invariants of the spec (§3): positive profit,
ETR inside the window, `ETR_sq = ETR × ETR`, `ln_profits = ln(profit)`. -/
def rowInv (log : ℚ → ℚ) (emin emax : ℚ) (r : Row1) : Prop :=
  0 < r.profit_before_tax ∧ emin ≤ r.ETR ∧ r.ETR < emax ∧
    r.ETR_sq = r.ETR * r.ETR ∧ r.ln_profits = log r.profit_before_tax

/-- A one-row table whose `employees` column is entirely zero-valued (the
row passes every other Base filter: positive profit, ETR inside [0, 0.5)). -/
def dfZeroEmployees : List FirmRecord :=
  [{ upe_name := "Italy", profit_before_tax := some 1, tax_accrued := some 0,
     tax_paid := some 0, employees := some 0, tangible_assets := some 1,
     related_revenues := some 1 }]

/-- A row of the comprehensive-study candidate table `data[cols]`,
`cols = [profit_before_tax, tax_col, employees, tangible_assets,
related_revenues]` (Italy_Comprehensive_Tax_Study.py lines 103-108). -/
structure CompRow where
  profit_before_tax : Option ℚ
  tax : Option ℚ
  employees : Option ℚ
  tangible_assets : Option ℚ
  related_revenues : Option ℚ
deriving DecidableEq, Repr

/-- Model of `.replace(0, np.nan)` on one value: exactly the value 0 becomes absent;
every other value (negative ones included) is untouched. -/
def replaceZero : Option ℚ → Option ℚ
  | some v => if v = 0 then none else some v
  | none => none

/-- Line 112: `data[controls] = data[controls].replace(0, np.nan)` — applied
to the three control columns only. -/
def compReplace (r : CompRow) : CompRow :=
  { r with employees := replaceZero r.employees,
           tangible_assets := replaceZero r.tangible_assets,
           related_revenues := replaceZero r.related_revenues }

/-- Lines 107-108: country filter and column projection. -/
def compSelect (t : TaxCol) (df : List FirmRecord) : List CompRow :=
  (df.filter fun r => r.upe_name == "Italy").map fun r =>
    { profit_before_tax := r.profit_before_tax, tax := taxGet t r,
      employees := r.employees, tangible_assets := r.tangible_assets,
      related_revenues := r.related_revenues }

/-- The candidate table handed to either missing-data strategy: selected,
projected, with zero controls marked absent. -/
def compCandidate (t : TaxCol) (df : List FirmRecord) : List CompRow :=
  (compSelect t df).map compReplace

/-- Model of `data.dropna()`: a row survives listwise deletion iff all five columns
are present. -/
def compAllPresent (r : CompRow) : Bool :=
  r.profit_before_tax.isSome && r.tax.isSome && r.employees.isSome &&
    r.tangible_assets.isSome && r.related_revenues.isSome

/-- Test `v != 0` on a nullable value (false on absent). -/
def nonzeroSome : Option ℚ → Bool
  | some v => decide (v ≠ 0)
  | none => false

/-- The Complete-Case survival predicate over the SOURCE candidate row:
profit and tax present, all three controls present and non-zero. -/
def ccSurvives (r : CompRow) : Bool :=
  r.profit_before_tax.isSome && r.tax.isSome && nonzeroSome r.employees &&
    nonzeroSome r.tangible_assets && nonzeroSome r.related_revenues

/-- Test `v > 0` with pandas NaN semantics (`NaN > 0` is false). -/
def optPos : Option ℚ → Bool
  | some v => decide (0 < v)
  | none => false

/-- NaN-propagating division of two nullable values. -/
def optDiv : Option ℚ → Option ℚ → Option ℚ
  | some a, some b => some (a / b)
  | _, _ => none

/-- Test `ETR >= ETR_MIN and ETR < ETR_MAX` with the comprehensive-study window
[0, 0.5) (NaN fails both comparisons). -/
def optInWindow : Option ℚ → Bool
  | some e => decide (0 ≤ e ∧ e < 1/2)
  | none => false

/-- A fully derived row of the comprehensive-study regression table. -/
structure FinalRow where
  profit_before_tax : ℚ
  tax : ℚ
  employees : ℚ
  tangible_assets : ℚ
  related_revenues : ℚ
  ETR : ℚ
  ln_profits : ℚ
  ln_employees : ℚ
  ln_tangible_assets : ℚ
  ln_related_revenues : ℚ
  ETR_sq : ℚ
deriving DecidableEq, Repr

/-- Steps 2-3 of `prepare_data_and_analyze` (lines 132-147), shared by both
strategies: positive-profit filter, ETR and its window filter, the
sequential positivity filters of the log loop, then the log and square
columns.  Rows reaching the final map have passed every positivity filter,
so all five columns are present and the fall-through match arm is dead. -/
def compShared (log : ℚ → ℚ) (rows : List CompRow) : List FinalRow :=
  let s1 := rows.filter fun r => optPos r.profit_before_tax
  let s2 := (s1.map fun r => (r, optDiv r.tax r.profit_before_tax)).filter
    fun x => optInWindow x.2
  let s3 := (((s2.filter fun x => optPos x.1.profit_before_tax).filter
      fun x => optPos x.1.employees).filter
      fun x => optPos x.1.tangible_assets).filter
      fun x => optPos x.1.related_revenues
  s3.filterMap fun x =>
    match x.1.profit_before_tax, x.1.tax, x.1.employees,
        x.1.tangible_assets, x.1.related_revenues, x.2 with
    | some p, some t, some e, some a, some w, some etr =>
        some { profit_before_tax := p, tax := t, employees := e,
               tangible_assets := a, related_revenues := w, ETR := etr,
               ln_profits := log p, ln_employees := log e,
               ln_tangible_assets := log a, ln_related_revenues := log w,
               ETR_sq := etr ^ 2 }
    | _, _, _, _, _, _ => none

/-- The two missing-data strategies of the comprehensive study. -/
inductive MDMethod where
  | cc
  | imputation
deriving DecidableEq, Repr

/-- Model of `prepare_data_and_analyze` (lines 102-151).  The sklearn
`IterativeImputer` is external library code: following the spec it is
modelled as a family `impFam` of deterministic functions of the candidate
table, indexed by the random seed; the script always passes the fixed seed
42 (`IterativeImputer(min_value=0.1, max_iter=20, random_state=42)`).
The imputation branch fits only when the candidate has more than 5 rows,
otherwise it reports insufficient data (`none`). -/
def compPrepare (log : ℚ → ℚ) (impFam : ℕ → List CompRow → List CompRow)
    (method : MDMethod) (t : TaxCol) (df : List FirmRecord) :
    Option (List FinalRow) :=
  let data := compCandidate t df
  match method with
  | .cc => some (compShared log (data.filter compAllPresent))
  | .imputation =>
      if 5 < data.length then some (compShared log (impFam 42 data))
      else none

/-- A one-row Italy table whose `employees` value is negative. -/
def dfNegEmployees : List FirmRecord :=
  [{ upe_name := "Italy", profit_before_tax := some 1, tax_accrued := some 0,
     tax_paid := some 0, employees := some (-3), tangible_assets := some 1,
     related_revenues := some 1 }]

/-- The row `mkBase1` produces from `blankRec` with the window [0, 1). -/
def wBaseRow : Row1 :=
  { firm := blankRec, profit_before_tax := 1, tax := 0, ETR := 0 / 1,
    ln_profits := constLog 1, ETR_sq := (0 / 1) ^ 2 }

/-- A raw cell value as the source table holds it before numeric coercion:
a number, a non-numeric string, or absent. -/
inductive RawVal where
  | num (q : ℚ)
  | str (s : String)
  | absent
deriving DecidableEq, Repr

/-- A raw row of the shared source table as `create_global_clean_bases`
receives it (after column renaming). -/
structure RawRecord where
  upe_name : String
  profit_before_tax : RawVal
  tax_accrued : RawVal
  tax_paid : RawVal
  employees : RawVal
  tangible_assets : RawVal
  related_revenues : RawVal
deriving DecidableEq, Repr

/-- Model of `pd.to_numeric(v, errors = coerce)` on one cell, with the pandas
string-to-number parser abstracted as `parse`: numbers and absent cells are
unchanged, strings parse to a number or become absent. -/
def toNumericVal (parse : String → Option ℚ) : RawVal → RawVal
  | .num q => .num q
  | .str s =>
      match parse s with
      | some q => .num q
      | none => .absent
  | .absent => .absent

/-- The in-place `df[c] = pd.to_numeric(df[c], errors = coerce)` writes of
`create_global_clean_bases` (Germany_Baseline_Tax_Study.py lines 77-79 and
98-99, Italy_Baseline_Tax_Study.py lines 100-109): the profit column, the
CHOSEN tax column and the three control columns are coerced in the shared
table; all other columns are untouched. -/
def coerceRecord (parse : String → Option ℚ) (t : TaxCol) (r : RawRecord) :
    RawRecord :=
  match t with
  | .accrued =>
      { r with
        profit_before_tax := toNumericVal parse r.profit_before_tax,
        tax_accrued := toNumericVal parse r.tax_accrued,
        employees := toNumericVal parse r.employees,
        tangible_assets := toNumericVal parse r.tangible_assets,
        related_revenues := toNumericVal parse r.related_revenues }
  | .paid =>
      { r with
        profit_before_tax := toNumericVal parse r.profit_before_tax,
        tax_paid := toNumericVal parse r.tax_paid,
        employees := toNumericVal parse r.employees,
        tangible_assets := toNumericVal parse r.tangible_assets,
        related_revenues := toNumericVal parse r.related_revenues }

/-- The state of the shared source table after one
`create_global_clean_bases` call for tax basis `t`. -/
def mutateDf (parse : String → Option ℚ) (t : TaxCol)
    (df : List RawRecord) : List RawRecord :=
  df.map (coerceRecord parse t)

/-- Reading a coerced cell as a nullable number. -/
def rawToOpt : RawVal → Option ℚ
  | .num q => some q
  | .str _ => none
  | .absent => none

/-- View of a raw record as a typed firm record — how the coerced columns
are consumed by the dropna/filter steps. -/
def toFirm (r : RawRecord) : FirmRecord :=
  { upe_name := r.upe_name,
    profit_before_tax := rawToOpt r.profit_before_tax,
    tax_accrued := rawToOpt r.tax_accrued,
    tax_paid := rawToOpt r.tax_paid,
    employees := rawToOpt r.employees,
    tangible_assets := rawToOpt r.tangible_assets,
    related_revenues := rawToOpt r.related_revenues }

/-- Model of `create_global_clean_bases` at the raw-table level: it builds its two
fresh bases and the control list, and leaves the shared source table in the
state `mutateDf parse t df` — the coercion writes are its only effect on
shared state. -/
def createGlobalCleanBases (log : ℚ → ℚ) (parse : String → Option ℚ)
    (emin emax : ℚ) (t : TaxCol) (df : List RawRecord) :
    List RawRecord × List Row1 × List Row2 × List String :=
  let dfc := mutateDf parse t df
  (dfc, mkBase1 log emin emax (taxGet t) (dfc.map toFirm),
    (germanyBase2 log emin emax (taxGet t) (dfc.map toFirm)).1,
    (germanyBase2 log emin emax (taxGet t) (dfc.map toFirm)).2)

/-- A raw cell that is already numeric-or-absent. -/
def RawVal.notStr : RawVal → Bool
  | .str _ => false
  | .num _ => true
  | .absent => true

/-- A normalized raw record: every financial field is numeric-or-absent
(what the Schema Normalizer guarantees for the pipeline's input table). -/
def rawNormalized (r : RawRecord) : Bool :=
  r.profit_before_tax.notStr && r.tax_accrued.notStr &&
    r.tax_paid.notStr && r.employees.notStr &&
    r.tangible_assets.notStr && r.related_revenues.notStr

/-- A concrete normalized raw table. -/
def rawDfW : List RawRecord :=
  [{ upe_name := "Italy", profit_before_tax := .num 1,
     tax_accrued := .num 0, tax_paid := .absent, employees := .num 2,
     tangible_assets := .num 3, related_revenues := .absent }]

/- Helper lemmas. -/

lemma foldl_min_le_init (rs : List Row1) (a : ℚ) :
    rs.foldl (fun m x => min m x.ETR) a ≤ a := by
  induction rs generalizing a with
  | nil => simp
  | cons r rs ih =>
      calc rs.foldl (fun m x => min m x.ETR) (min a r.ETR)
          ≤ min a r.ETR := ih _
        _ ≤ a := min_le_left _ _

lemma foldl_min_le_mem (rs : List Row1) (a : ℚ) (x : Row1) (hx : x ∈ rs) :
    rs.foldl (fun m x => min m x.ETR) a ≤ x.ETR := by
  induction rs generalizing a with
  | nil => cases hx
  | cons r rs ih =>
      rcases List.mem_cons.mp hx with h | h
      · subst h
        calc rs.foldl (fun m x => min m x.ETR) (min a x.ETR)
            ≤ min a x.ETR := foldl_min_le_init _ _
          _ ≤ x.ETR := min_le_right _ _
      · exact ih _ h

lemma init_le_foldl_max (rs : List Row1) (a : ℚ) :
    a ≤ rs.foldl (fun m x => max m x.ETR) a := by
  induction rs generalizing a with
  | nil => simp
  | cons r rs ih =>
      calc a ≤ max a r.ETR := le_max_left _ _
        _ ≤ rs.foldl (fun m x => max m x.ETR) (max a r.ETR) := ih _

lemma mem_le_foldl_max (rs : List Row1) (a : ℚ) (x : Row1) (hx : x ∈ rs) :
    x.ETR ≤ rs.foldl (fun m x => max m x.ETR) a := by
  induction rs generalizing a with
  | nil => cases hx
  | cons r rs ih =>
      rcases List.mem_cons.mp hx with h | h
      · subst h
        calc x.ETR ≤ max a x.ETR := le_max_right _ _
          _ ≤ rs.foldl (fun m x => max m x.ETR) (max a x.ETR) := init_le_foldl_max _ _
      · exact ih _ h

lemma minETR_le (rows : List Row1) (x : Row1) (hx : x ∈ rows) :
    minETR rows ≤ x.ETR := by
  cases rows with
  | nil => cases hx
  | cons r rs =>
      rcases List.mem_cons.mp hx with h | h
      · subst h; exact foldl_min_le_init _ _
      · exact foldl_min_le_mem _ _ _ h

lemma le_maxETR (rows : List Row1) (x : Row1) (hx : x ∈ rows) :
    x.ETR ≤ maxETR rows := by
  cases rows with
  | nil => cases hx
  | cons r rs =>
      rcases List.mem_cons.mp hx with h | h
      · subst h; exact init_le_foldl_max _ _
      · exact mem_le_foldl_max _ _ _ h

lemma ctrlName_inj (a b : Ctrl) (h : ctrlName a = ctrlName b) : a = b := by
  cases a <;> cases b <;> first | rfl | (exfalso; simp [ctrlName] at h)

lemma applyControl_mem (log : ℚ → ℚ) (c : Ctrl) (rows : List Row2) (r2 : Row2)
    (h : r2 ∈ applyControl log c rows) :
    ∃ r0 ∈ rows, ∃ v : ℚ, 0 < v ∧ ctrlGet c r0.base.firm = some v ∧
      r2 = { r0 with lnCtrls := r0.lnCtrls ++ [("ln_" ++ ctrlName c, log v)] } := by
  simp only [applyControl, List.mem_filterMap] at h
  obtain ⟨r0, hr0, hf⟩ := h
  split at hf
  next v hv =>
    split at hf
    next hpos => exact ⟨r0, hr0, v, hpos, hv, (Option.some.inj hf).symm⟩
    next hpos => exact absurd hf (by simp)
  next hv => exact absurd hf (by simp)

lemma foldl_applyControl_inv (log : ℚ → ℚ) (Q : Row1 → Prop)
    (cs : List Ctrl) (rows : List Row2)
    (h : ∀ r ∈ rows, Q r.base ∧ lnPos log r) :
    ∀ r2 ∈ cs.foldl (fun acc c => applyControl log c acc) rows,
      Q r2.base ∧ lnPos log r2 := by
  induction cs generalizing rows with
  | nil => simpa using h
  | cons c cs ih =>
      intro r2 hr2
      refine ih (applyControl log c rows) ?_ r2 (by simpa using hr2)
      intro r hr
      obtain ⟨r0, hr0, v, hv, -, rfl⟩ := applyControl_mem log c rows r hr
      obtain ⟨hQ, hln⟩ := h r0 hr0
      refine ⟨hQ, ?_⟩
      intro p hp
      rcases List.mem_append.mp hp with hp | hp
      · exact hln p hp
      · rcases List.mem_singleton.mp hp with rfl
        exact ⟨v, hv, rfl⟩

lemma finishBase_inv (log : ℚ → ℚ) (emin emax : ℚ)
    (s : List (FirmRecord × ℚ × ℚ)) (r : Row1)
    (hr : r ∈ finishBase log emin emax s) : rowInv log emin emax r := by
  simp only [finishBase, List.mem_map, List.mem_filter, decide_eq_true_eq] at hr
  obtain ⟨y, ⟨⟨x, ⟨hx, hpos⟩, rfl⟩, h1, h2⟩, rfl⟩ := hr
  exact ⟨hpos, h1, h2, pow_two _, rfl⟩

lemma analyzerBase1_inv (log : ℚ → ℚ) (tax : FirmRecord → Option ℚ)
    (df : List FirmRecord) (r : Row1) (hr : r ∈ analyzerBase1 log tax df) :
    rowInv log 0 (1/2) r := by
  simp only [analyzerBase1, List.mem_map, List.mem_filter,
    decide_eq_true_eq] at hr
  obtain ⟨x, ⟨hx, hpos, h1, h2⟩, rfl⟩ := hr
  exact ⟨hpos, h1, h2, pow_two _, rfl⟩

lemma countPos_eq_zero (get : FirmRecord → Option ℚ) (b1 : List Row1)
    (h : ∀ r ∈ b1, get r.firm = some 0 ∨ get r.firm = none) :
    countPos get b1 = 0 := by
  simp only [countPos, List.length_eq_zero]
  refine List.filter_eq_nil_iff.mpr ?_
  intro r hr
  rcases h r hr with h0 | h0 <;> simp [h0]

lemma dropnaPT_fst_mem (tax : FirmRecord → Option ℚ) (df : List FirmRecord)
    (x : FirmRecord × ℚ × ℚ) (hx : x ∈ dropnaPT tax df) : x.1 ∈ df := by
  simp only [dropnaPT, List.mem_filterMap] at hx
  obtain ⟨r0, hr0, hf⟩ := hx
  split at hf
  next => obtain rfl := Option.some.inj hf; exact hr0
  next => exact absurd hf (by simp)

lemma analyzerBase1_firm_mem (log : ℚ → ℚ) (tax : FirmRecord → Option ℚ)
    (df : List FirmRecord) (r : Row1) (hr : r ∈ analyzerBase1 log tax df) :
    r.firm ∈ df := by
  simp only [analyzerBase1, List.mem_map, List.mem_filter] at hr
  obtain ⟨x, ⟨hx, -⟩, rfl⟩ := hr
  exact dropnaPT_fst_mem tax df x hx

lemma analyzer_excludes_dead_control (log : ℚ → ℚ)
    (tax : FirmRecord → Option ℚ) (df : List FirmRecord) (c0 : Ctrl)
    (hz : countPos (ctrlGet c0) (analyzerBase1 log tax df) = 0) :
    ctrlName c0 ∉ (analyzerBase2 log tax df).2 := by
  intro hmem
  simp only [analyzerBase2] at hmem
  obtain ⟨c, hc, hcname⟩ := List.mem_map.mp hmem
  obtain ⟨-, hdec⟩ := List.mem_filter.mp hc
  have hcount := of_decide_eq_true hdec
  rw [ctrlName_inj c c0 hcname, hz] at hcount
  omega

lemma replaceZero_eq_ite (o : Option ℚ) :
    replaceZero o = if o = some 0 then none else o := by
  cases o with
  | none => simp [replaceZero]
  | some v =>
      by_cases h : v = 0 <;> simp [replaceZero, h]

lemma replaceZero_isSome (o : Option ℚ) :
    (replaceZero o).isSome = nonzeroSome o := by
  cases o with
  | none => rfl
  | some v => by_cases h : v = 0 <;> simp [replaceZero, nonzeroSome, h]

lemma replaceZero_of_nonzero (o : Option ℚ) (h : nonzeroSome o = true) :
    replaceZero o = o := by
  cases o with
  | none => rfl
  | some v =>
      simp only [nonzeroSome, decide_eq_true_eq] at h
      simp [replaceZero, h]

lemma compAllPresent_replace (r : CompRow) :
    compAllPresent (compReplace r) = ccSurvives r := by
  simp only [compAllPresent, compReplace, ccSurvives, replaceZero_isSome]

lemma compReplace_of_survives (r : CompRow) (h : ccSurvives r = true) :
    compReplace r = r := by
  simp only [ccSurvives, Bool.and_eq_true] at h
  cases r
  simp only [compReplace]
  rw [replaceZero_of_nonzero _ h.1.1.2, replaceZero_of_nonzero _ h.1.2,
    replaceZero_of_nonzero _ h.2]

lemma cc_filter_eq (rows : List CompRow) :
    (rows.map compReplace).filter compAllPresent = rows.filter ccSurvives := by
  induction rows with
  | nil => rfl
  | cons r rows ih =>
      simp only [List.map_cons, List.filter_cons, compAllPresent_replace]
      by_cases h : ccSurvives r = true
      · simp [h, compReplace_of_survives r h, ih]
      · simp [h, ih]

lemma compShared_inv (log : ℚ → ℚ) (rows : List CompRow) (fr : FinalRow)
    (hfr : fr ∈ compShared log rows) :
    0 < fr.profit_before_tax ∧ 0 ≤ fr.ETR ∧ fr.ETR < 1/2 ∧
      fr.ETR_sq = fr.ETR * fr.ETR ∧
      fr.ln_profits = log fr.profit_before_tax := by
  simp only [compShared, List.mem_filterMap, List.mem_filter,
    List.mem_map] at hfr
  obtain ⟨x, hx, hf⟩ := hfr
  obtain ⟨⟨⟨⟨⟨-, hwin⟩, hposp⟩, -⟩, -⟩, -⟩ := hx
  split at hf
  next p t e a w etr hp ht he ha hw hetr =>
    obtain rfl := Option.some.inj hf
    rw [hp] at hposp
    rw [hetr] at hwin
    simp only [optPos, decide_eq_true_eq] at hposp
    simp only [optInWindow, decide_eq_true_eq] at hwin
    exact ⟨hposp, hwin.1, hwin.2, pow_two _, rfl⟩
  next => exact absurd hf (by simp)

lemma toNumericVal_id (parse : String → Option ℚ) (v : RawVal)
    (h : v.notStr = true) : toNumericVal parse v = v := by
  cases v with
  | num q => rfl
  | str s => exact absurd h (by simp [RawVal.notStr])
  | absent => rfl

lemma coerceRecord_id (parse : String → Option ℚ) (t : TaxCol)
    (r : RawRecord) (h : rawNormalized r = true) :
    coerceRecord parse t r = r := by
  simp only [rawNormalized, Bool.and_eq_true] at h
  obtain ⟨⟨⟨⟨⟨h1, h2⟩, h3⟩, h4⟩, h5⟩, h6⟩ := h
  cases t <;>
    simp [coerceRecord, toNumericVal_id parse _ h1,
      toNumericVal_id parse _ h2, toNumericVal_id parse _ h3,
      toNumericVal_id parse _ h4, toNumericVal_id parse _ h5,
      toNumericVal_id parse _ h6]

lemma mutateDf_id (parse : String → Option ℚ) (t : TaxCol)
    (df : List RawRecord) (h : ∀ r ∈ df, rawNormalized r = true) :
    mutateDf parse t df = df := by
  induction df with
  | nil => rfl
  | cons r df ih =>
      simp only [mutateDf, List.map_cons]
      rw [coerceRecord_id parse t r (h r (List.mem_cons_self r df))]
      have h2 := ih fun x hx => h x (List.mem_cons_of_mem r hx)
      simp only [mutateDf] at h2
      rw [h2]

/- Claim theorems, witnesses and counterexamples. -/

/-- Claim C1: for every fitted quadratic result with coefficients `b1` (ETR)
and `b2` (ETR_sq), the analyzer computes `tp = -b1 / (2*b2)` when `b2 ≠ 0`,
and reports `tp = 0` instead of dividing by zero when `b2 = 0`. -/
theorem C1_turning_point (b1 b2 : ℚ) :
    (b2 ≠ 0 → turningPoint b1 b2 = -b1 / (2 * b2)) ∧
    (b2 = 0 → turningPoint b1 b2 = 0) := by
  constructor
  · intro h
    simp [turningPoint, h]
  · intro h
    simp [turningPoint, h]

theorem C1_turning_point_witness :
    turningPoint (-(2/5)) (4/5) = -(-(2/5)) / (2 * (4/5)) ∧
    turningPoint (-(2/5)) 0 = 0 :=
  ⟨(C1_turning_point (-(2/5)) (4/5)).1 (by norm_num),
   (C1_turning_point (-(2/5)) 0).2 rfl⟩

/-- Claim C2, counterexample: at `b2 = 0` the code labels the curve
"U-Shape" (the `else` branch of `Analyzer.run_regression`), not
"degenerate"; no degenerate label exists in the code. -/
theorem C2_shape_counterexample :
    shapeLabel 0 = "U-Shape" ∧ shapeLabel 0 ≠ "degenerate" := by
  constructor
  · rfl
  · decide

/-- Claim C2, amended: the reported curve shape is "Inverted U" when
`b2 < 0` and "U-Shape" when `b2 ≥ 0`; in particular when `b2 = 0` the code
reports "U-Shape" together with `tp = 0` (there is no "degenerate" label). -/
theorem C2_shape_amended (b1 b2 : ℚ) :
    (b2 < 0 → shapeLabel b2 = "Inverted U") ∧
    (0 ≤ b2 → shapeLabel b2 = "U-Shape") ∧
    (b2 = 0 → shapeLabel b2 = "U-Shape" ∧ turningPoint b1 b2 = 0) := by
  refine ⟨fun h => ?_, fun h => ?_, fun h => ?_⟩
  · simp [shapeLabel, h]
  · simp [shapeLabel, not_lt.mpr h]
  · subst h
    exact ⟨by simp [shapeLabel], by simp [turningPoint]⟩

theorem C2_shape_amended_witness :
    shapeLabel (-1) = "Inverted U" ∧ shapeLabel 1 = "U-Shape" ∧
    (shapeLabel 0 = "U-Shape" ∧ turningPoint 7 0 = 0) :=
  ⟨(C2_shape_amended 0 (-1)).1 (by norm_num),
   (C2_shape_amended 0 1).2.1 (by norm_num),
   (C2_shape_amended 7 0).2.2 rfl⟩

/-- Claim C3: the in-range flag is YES exactly when
`min(observed ETR) ≤ tp ≤ max(observed ETR)` over the base that produced the
result (with `minETR`/`maxETR` genuinely bounding every observed ETR), and on
the spec example `b1 = -0.4`, `b2 = 0.8` the turning point is `0.25`, in
range for observed ETRs spanning [0, 0.4] and out of range for observed ETRs
spanning [0.3, 0.4]. -/
theorem C3_in_range_flag (rows : List Row1) (b1 b2 : ℚ) :
    (uTestValid rows b1 b2 = true ↔
      minETR rows ≤ turningPoint b1 b2 ∧ turningPoint b1 b2 ≤ maxETR rows) ∧
    (∀ x ∈ rows, minETR rows ≤ x.ETR ∧ x.ETR ≤ maxETR rows) ∧
    (turningPoint (-(2/5)) (4/5) = 1/4 ∧
      uTestValid exBaseLow (-(2/5)) (4/5) = true ∧
      uTestValid exBaseHigh (-(2/5)) (4/5) = false) := by
  refine ⟨?_, ?_, ?_, ?_, ?_⟩
  · simp [uTestValid]
  · exact fun x hx => ⟨minETR_le rows x hx, le_maxETR rows x hx⟩
  · norm_num [turningPoint]
  · have htp : turningPoint (-(2/5)) (4/5) = 1/4 := by norm_num [turningPoint]
    simp only [uTestValid, htp, exBaseLow, rowWithETR, minETR, maxETR,
      List.foldl_cons, List.foldl_nil, decide_eq_true_eq]
    norm_num
  · have htp : turningPoint (-(2/5)) (4/5) = 1/4 := by norm_num [turningPoint]
    simp only [uTestValid, htp, exBaseHigh, rowWithETR, minETR, maxETR,
      List.foldl_cons, List.foldl_nil, decide_eq_false_iff_not]
    norm_num

theorem C3_in_range_flag_witness :
    minETR exBaseLow ≤ (rowWithETR 0).ETR ∧ (rowWithETR 0).ETR ≤ maxETR exBaseLow :=
  (C3_in_range_flag exBaseLow 0 0).2.1 (rowWithETR 0) (by decide)

/-- Claim C5: a model is fitted only when the base has at least the
threshold number of rows (Germany main uses 10, the sector-level
`run_regression` uses 5), insufficient-data is reported below the
threshold, and a 4-row base never yields a fitted model. -/
theorem C5_min_observations (df : List Row1) :
    (germanyMainFits df = true → 10 ≤ df.length) ∧
    (df.length < 10 → germanyMainFits df = false) ∧
    (italyFits df = true ↔ 5 ≤ df.length) ∧
    (italyInsufficient df = true ↔ df.length < 5) ∧
    (df.length = 4 →
      italyInsufficient df = true ∧ germanyMainFits df = false ∧
        italyFits df = false) := by
  refine ⟨?_, ?_, ?_, ?_, ?_⟩
  · intro h
    have := of_decide_eq_true h
    omega
  · intro h
    simp only [germanyMainFits, decide_eq_false_iff_not]
    omega
  · simp only [italyFits, italyInsufficient, Bool.not_eq_true',
      decide_eq_false_iff_not, not_lt]
  · simp only [italyInsufficient, decide_eq_true_eq]
  · intro h
    refine ⟨?_, ?_, ?_⟩
    · simp only [italyInsufficient, decide_eq_true_eq]; omega
    · simp only [germanyMainFits, decide_eq_false_iff_not]; omega
    · simp only [italyFits, italyInsufficient, Bool.not_eq_true,
        Bool.not_eq_false', decide_eq_true_eq]
      omega

theorem C5_min_observations_witness :
    italyInsufficient fourRowBase = true ∧
    germanyMainFits fourRowBase = false ∧ italyFits fourRowBase = false :=
  (C5_min_observations fourRowBase).2.2.2.2 rfl

/-- Claim C6, amended: in `Analyzer.prepare_datasets` a requested control is
included in the returned control list exactly when more than 5 rows of the
base have a strictly positive value for it — so an entirely zero-valued
control column is excluded, and every logged value is the log of a strictly
positive number, never `ln(0)`.  In `create_global_clean_bases` however the
returned `logged_controls` list always contains all three `ln_<control>`
names, independently of the data (rows with non-positive control values are
dropped before the log, so `ln(0)` is still never attempted there). -/
theorem C6_control_list (log : ℚ → ℚ) (emin emax : ℚ)
    (tax : FirmRecord → Option ℚ) (df : List FirmRecord) (c : Ctrl) :
    (c ∈ analyzerValidControls (analyzerBase1 log tax df) ↔
       5 < countPos (ctrlGet c) (analyzerBase1 log tax df)) ∧
    ((∀ r ∈ analyzerBase1 log tax df,
        ctrlGet c r.firm = some 0 ∨ ctrlGet c r.firm = none) →
       ctrlName c ∉ (analyzerBase2 log tax df).2) ∧
    (∀ r2 ∈ (analyzerBase2 log tax df).1, lnPos log r2) ∧
    ((germanyBase2 log emin emax tax df).2 =
       ["ln_employees", "ln_tangible_assets", "ln_related_revenues"]) ∧
    (∀ r2 ∈ (germanyBase2 log emin emax tax df).1, lnPos log r2) := by
  refine ⟨⟨?_, ?_⟩, ?_, ?_, ?_, ?_⟩
  · intro h
    exact of_decide_eq_true (List.mem_filter.mp h).2
  · intro h
    refine List.mem_filter.mpr ⟨?_, decide_eq_true h⟩
    cases c <;> simp [controlList]
  · intro hz
    exact analyzer_excludes_dead_control log tax df c
      (countPos_eq_zero _ _ hz)
  · intro r2 hr2
    simp only [analyzerBase2] at hr2
    refine (foldl_applyControl_inv log (fun _ => True) _ _ ?_ r2 hr2).2
    intro r hr
    obtain ⟨r1, -, rfl⟩ := List.mem_map.mp hr
    exact ⟨trivial, fun p hp => absurd hp (List.not_mem_nil p)⟩
  · rfl
  · intro r2 hr2
    simp only [germanyBase2] at hr2
    refine (foldl_applyControl_inv log (fun _ => True) _ _ ?_ r2 hr2).2
    intro r hr
    obtain ⟨r1, -, rfl⟩ := List.mem_map.mp hr
    exact ⟨trivial, fun p hp => absurd hp (List.not_mem_nil p)⟩

theorem C6_control_list_witness :
    ctrlName Ctrl.employees ∉
      (analyzerBase2 constLog (taxGet .accrued) dfZeroEmployees).2 :=
  (C6_control_list constLog 0 (1/2) (taxGet .accrued) dfZeroEmployees
    Ctrl.employees).2.1 (by
      intro r hr
      left
      have hm := List.mem_singleton.mp
        (analyzerBase1_firm_mem _ _ _ r hr)
      rw [hm]
      rfl)

/-- Claim C6, counterexample: `create_global_clean_bases` returns a
`logged_controls` list that contains `ln_employees` even when the
`employees` column is entirely zero-valued — the inclusion test checks only
that the column exists, not that any value survived the positivity filter. -/
theorem C6_counterexample :
    (∀ r ∈ dfZeroEmployees, r.employees = some 0) ∧
    "ln_employees" ∈
      (germanyBase2 constLog 0 (1/2) (taxGet .accrued) dfZeroEmployees).2 := by
  constructor
  · decide
  · decide

/-- Claim C10: under the Complete-Case strategy the surviving row set is
exactly the candidate rows whose profit and tax-basis are present and whose
three control values are present and non-zero — zeros in control columns are
converted to the absent marker before listwise deletion, so they are dropped
alongside genuinely missing values (and the survivors are returned
unchanged). -/
theorem C10_complete_case_rows (rows : List CompRow) (log : ℚ → ℚ)
    (impFam : ℕ → List CompRow → List CompRow) (t : TaxCol)
    (df : List FirmRecord) :
    ((rows.map compReplace).filter compAllPresent = rows.filter ccSurvives) ∧
    (compPrepare log impFam .cc t df =
      some (compShared log ((compSelect t df).filter ccSurvives))) := by
  refine ⟨cc_filter_eq rows, ?_⟩
  simp only [compPrepare, compCandidate]
  rw [cc_filter_eq]

/-- Claim C7, counterexample: a control value of -3 is non-positive yet it
survives the replacement step untouched — the code replaces only the exact
value 0 with the absent marker, not negative values.  The pre-imputer
candidate table still contains `employees = -3`. -/
theorem C7_replace_counterexample :
    compCandidate TaxCol.accrued dfNegEmployees =
      [{ profit_before_tax := some 1, tax := some 0, employees := some (-3),
         tangible_assets := some 1, related_revenues := some 1 }] ∧
    ¬(0 : ℚ) < -3 ∧ (some (-3) : Option ℚ) ≠ none := by
  refine ⟨?_, by norm_num, by simp⟩
  simp [compCandidate, compSelect, dfNegEmployees, compReplace, taxGet,
    replaceZero_eq_ite]

/-- Claim C7, amended: under the Multiple Imputation strategy, before any
other filtering every ZERO control value in the candidate table is replaced
with the explicit-absent marker prior to fitting the imputer; negative
control values are left in place (they are only removed later, by the
positivity filters that precede the log step). -/
theorem C7_zero_replaced (r : CompRow) (t : TaxCol) (df : List FirmRecord) :
    ((compReplace r).employees =
       (if r.employees = some 0 then none else r.employees)) ∧
    ((compReplace r).tangible_assets =
       (if r.tangible_assets = some 0 then none else r.tangible_assets)) ∧
    ((compReplace r).related_revenues =
       (if r.related_revenues = some 0 then none else r.related_revenues)) ∧
    ((compReplace r).profit_before_tax = r.profit_before_tax) ∧
    ((compReplace r).tax = r.tax) ∧
    (compCandidate t df = (compSelect t df).map compReplace) :=
  ⟨replaceZero_eq_ite r.employees, replaceZero_eq_ite r.tangible_assets,
   replaceZero_eq_ite r.related_revenues, rfl, rfl, rfl⟩

/-- Claim C8: the imputation pipeline is a deterministic function of its
input — the imputer runs with the fixed seed 42, so two runs on identical
input tables produce identical results. -/
theorem C8_imputation_deterministic (log : ℚ → ℚ)
    (impFam : ℕ → List CompRow → List CompRow) (method : MDMethod)
    (t : TaxCol) (df1 df2 : List FirmRecord) (h : df1 = df2) :
    compPrepare log impFam method t df1 = compPrepare log impFam method t df2 := by
  rw [h]

theorem C8_imputation_deterministic_witness :
    compPrepare constLog (fun _ rows => rows) .imputation .accrued
        dfNegEmployees =
      compPrepare constLog (fun _ rows => rows) .imputation .accrued
        dfNegEmployees :=
  C8_imputation_deterministic constLog (fun _ rows => rows) .imputation
    .accrued dfNegEmployees dfNegEmployees rfl

/-- Claim C4: every row of every constructed AnalysisBase — Base 1 and
Base 2 of both `create_global_clean_bases` and `Analyzer.prepare_datasets`,
and the comprehensive-study base under either missing-data strategy —
satisfies `profit_before_tax > 0`, `ETR_MIN ≤ ETR < ETR_MAX`,
`ETR_sq = ETR × ETR` exactly, and `ln_profits = ln(profit_before_tax)`. -/
theorem C4_row_invariants :
    (∀ (log : ℚ → ℚ) (emin emax : ℚ) (tax : FirmRecord → Option ℚ)
       (df : List FirmRecord) (r : Row1),
       r ∈ mkBase1 log emin emax tax df → rowInv log emin emax r) ∧
    (∀ (log : ℚ → ℚ) (emin emax : ℚ) (tax : FirmRecord → Option ℚ)
       (df : List FirmRecord) (r2 : Row2),
       r2 ∈ (germanyBase2 log emin emax tax df).1 →
         rowInv log emin emax r2.base) ∧
    (∀ (log : ℚ → ℚ) (tax : FirmRecord → Option ℚ) (df : List FirmRecord)
       (r : Row1), r ∈ analyzerBase1 log tax df → rowInv log 0 (1/2) r) ∧
    (∀ (log : ℚ → ℚ) (tax : FirmRecord → Option ℚ) (df : List FirmRecord)
       (r2 : Row2), r2 ∈ (analyzerBase2 log tax df).1 →
         rowInv log 0 (1/2) r2.base) ∧
    (∀ (log : ℚ → ℚ) (impFam : ℕ → List CompRow → List CompRow)
       (method : MDMethod) (t : TaxCol) (df : List FirmRecord)
       (out : List FinalRow) (fr : FinalRow),
       compPrepare log impFam method t df = some out → fr ∈ out →
         0 < fr.profit_before_tax ∧ 0 ≤ fr.ETR ∧ fr.ETR < 1/2 ∧
           fr.ETR_sq = fr.ETR * fr.ETR ∧
           fr.ln_profits = log fr.profit_before_tax) := by
  refine ⟨?_, ?_, ?_, ?_, ?_⟩
  · intro log emin emax tax df r hr
    exact finishBase_inv log emin emax _ r hr
  · intro log emin emax tax df r2 hr2
    simp only [germanyBase2] at hr2
    refine (foldl_applyControl_inv log (rowInv log emin emax) _ _ ?_ r2 hr2).1
    intro r hr
    obtain ⟨r1, hr1, rfl⟩ := List.mem_map.mp hr
    exact ⟨finishBase_inv log emin emax _ r1 hr1,
      fun p hp => absurd hp (List.not_mem_nil p)⟩
  · intro log tax df r hr
    exact analyzerBase1_inv log tax df r hr
  · intro log tax df r2 hr2
    simp only [analyzerBase2] at hr2
    refine (foldl_applyControl_inv log (rowInv log 0 (1/2)) _ _ ?_ r2 hr2).1
    intro r hr
    obtain ⟨r1, hr1, rfl⟩ := List.mem_map.mp hr
    exact ⟨analyzerBase1_inv log tax df r1 (List.mem_filter.mp hr1).1,
      fun p hp => absurd hp (List.not_mem_nil p)⟩
  · intro log impFam method t df out fr hout hfr
    cases method with
    | cc =>
        obtain rfl := Option.some.inj hout
        exact compShared_inv log _ fr hfr
    | imputation =>
        simp only [compPrepare] at hout
        split at hout
        · obtain rfl := Option.some.inj hout
          exact compShared_inv log _ fr hfr
        · exact absurd hout (by simp)

theorem C4_row_invariants_witness : rowInv constLog 0 1 wBaseRow :=
  C4_row_invariants.1 constLog 0 1 (taxGet .accrued) [blankRec] wBaseRow
    (by
      norm_num [mkBase1, finishBase, dropnaPT, blankRec, wBaseRow, taxGet,
        List.filterMap_cons, List.filter_cons])

/-- Claim C9: on a normalized source table the in-place numeric coercions
of `create_global_clean_bases` are value-preserving, so processing one
(tax-basis, control-level) combination leaves the shared source table
unchanged, and the next combination sees exactly the table the first one
saw — its bases are identical to those built from the original table. -/
theorem C9_source_table_preserved (log : ℚ → ℚ)
    (parse : String → Option ℚ) (emin emax : ℚ) (t1 t2 : TaxCol)
    (df : List RawRecord) (h : ∀ r ∈ df, rawNormalized r = true) :
    (createGlobalCleanBases log parse emin emax t1 df).1 = df ∧
    createGlobalCleanBases log parse emin emax t2
        ((createGlobalCleanBases log parse emin emax t1 df).1) =
      createGlobalCleanBases log parse emin emax t2 df := by
  have h1 : (createGlobalCleanBases log parse emin emax t1 df).1 = df :=
    mutateDf_id parse t1 df h
  exact ⟨h1, by rw [h1]⟩

theorem C9_source_table_preserved_witness :
    (createGlobalCleanBases constLog (fun _ => none) 0 1 .accrued rawDfW).1 =
      rawDfW :=
  (C9_source_table_preserved constLog (fun _ => none) 0 1 .accrued .paid
    rawDfW (by decide)).1
